import Mathlib

/-!
Shallow embedding of the order-backlog assistant (`order.py`): schema
validation, aggregation, query resolution, response formatting and the
conversation/session state, together with proofs of the specified
properties. Quantities are modelled as exact rationals; a raw
`ORDERED_QUANTITY` cell is an `Option ℚ`, where `none` stands for a cell
that `pd.to_numeric(..., errors="coerce")` cannot parse as a number.
-/

namespace Orderful

/-- Drop leading and trailing whitespace from a character list. -/
def trimChars (l : List Char) : List Char :=
  ((l.dropWhile Char.isWhitespace).reverse.dropWhile Char.isWhitespace).reverse

/-- Model of `str.strip()` / pandas `.str.strip()`. -/
def sTrim (s : String) : String := ⟨trimChars s.data⟩

/-- Model of `str.lower()`, character by character. -/
def sLower (s : String) : String := ⟨s.data.map Char.toLower⟩

/-- Strict lexicographic comparison of strings by code point, as Python's
`<` on strings compares them. -/
def sLt (a b : String) : Prop := List.Lex (· < ·) a.data b.data

instance : DecidableRel sLt := fun a b =>
  inferInstanceAs (Decidable (List.Lex (· < ·) a.data b.data))

/-- One row of the raw uploaded table, with the six required columns. -/
structure RawRow where
  soldto : String
  typ : String
  incoterm : String
  statusSummary : String
  city : String
  orderedQuantity : Option ℚ
deriving DecidableEq

/-- The raw table: its (untrimmed) column headers and its rows. -/
structure RawTable where
  columns : List String
  rows : List RawRow
deriving DecidableEq

/-- The `required_cols` list of `load_data`. -/
def required_cols : List String :=
  ["SOLDTO", "Type", "Incoterm", "Status Summary", "ORDERED_QUANTITY", "City"]

/-- Column headers after `df_raw.columns.str.strip()`. -/
def strippedColumns (t : RawTable) : List String := t.columns.map sTrim

/-- The `missing` list: required columns absent from the trimmed headers. -/
def missingOf (t : RawTable) : List String :=
  required_cols.filter (fun c => decide (c ∉ strippedColumns t))

/-- One row of the normalized table (after trimming and status lowercasing). -/
structure NormRow where
  soldto : String
  city : String
  typ : String
  incoterm : String
  status : String
  qty : ℚ
deriving DecidableEq

/-- Per-row normalization: `.str.strip()` on the four key columns,
`.str.strip().str.lower()` on `Status Summary`, and numeric coercion of
`ORDERED_QUANTITY` with unparsable cells replaced by `0` (`fillna(0)`). -/
def normalizeRow (r : RawRow) : NormRow where
  soldto := sTrim r.soldto
  city := sTrim r.city
  typ := sTrim r.typ
  incoterm := sTrim r.incoterm
  status := sLower (sTrim r.statusSummary)
  qty := r.orderedQuantity.getD 0

/-- The grouping key `["SOLDTO", "City", "Type", "Incoterm"]`. -/
abbrev AggKey := String × String × String × String

def keyOf (r : NormRow) : AggKey := (r.soldto, r.city, r.typ, r.incoterm)

/-- Lexicographic comparison on `String × α`, first component first. -/
def strLex {α : Type} (r : α → α → Prop) : String × α → String × α → Prop :=
  fun a b => sLt a.1 b.1 ∨ (a.1 = b.1 ∧ r a.2 b.2)

instance strLex.instDecidableRel {α : Type} (r : α → α → Prop) [DecidableRel r] :
    DecidableRel (strLex r) := fun a b =>
  decidable_of_iff (sLt a.1 b.1 ∨ (a.1 = b.1 ∧ r a.2 b.2)) Iff.rfl

instance strLex.instIsTrans {α : Type} (r : α → α → Prop) [IsTrans α r] :
    IsTrans (String × α) (strLex r) := by
  constructor
  rintro a b c (hab | ⟨hab, hab2⟩) (hbc | ⟨hbc, hbc2⟩)
  · exact Or.inl (Trans.trans (r := List.Lex (· < ·)) hab hbc)
  · exact Or.inl (hbc ▸ hab)
  · exact Or.inl (hab ▸ hbc)
  · exact Or.inr ⟨hab.trans hbc, Trans.trans hab2 hbc2⟩

instance strLex.instIsTotal {α : Type} (r : α → α → Prop) [IsTotal α r] :
    IsTotal (String × α) (strLex r) := by
  constructor
  intro a b
  have inst : IsTrichotomous (List Char) (List.Lex (· < ·)) := inferInstance
  rcases inst.trichotomous a.1.data b.1.data with h | h | h
  · exact Or.inl (Or.inl h)
  · have he : a.1 = b.1 := String.ext h
    rcases IsTotal.total (r := r) a.2 b.2 with h2 | h2
    · exact Or.inl (Or.inr ⟨he, h2⟩)
    · exact Or.inr (Or.inr ⟨he.symm, h2⟩)
  · exact Or.inr (Or.inl h)

instance strLex.instIsAntisymm {α : Type} (r : α → α → Prop) [IsAntisymm α r] :
    IsAntisymm (String × α) (strLex r) := by
  constructor
  rintro ⟨a1, a2⟩ ⟨b1, b2⟩ (hab | ⟨hab, hab2⟩) (hba | ⟨hba, hba2⟩)
  · exact absurd hba (IsAsymm.asymm (r := List.Lex (· < ·)) _ _ hab)
  · exact absurd (IsAsymm.asymm (r := List.Lex (· < ·)) _ _ (hba ▸ hab)) (fun hn => hn (hba ▸ hab))
  · exact absurd (IsAsymm.asymm (r := List.Lex (· < ·)) _ _ (hab ▸ hba)) (fun hn => hn (hab ▸ hba))
  · simp only [Prod.mk.injEq]
    exact ⟨hab, antisymm hab2 hba2⟩

/-- Non-strict code-point comparison of strings. -/
def sLe : String → String → Prop := fun a b => sLt a b ∨ a = b

instance : DecidableRel sLe := fun a b =>
  decidable_of_iff (sLt a b ∨ a = b) Iff.rfl

instance : IsTrans String sLe := by
  constructor
  rintro a b c (hab | rfl) (hbc | rfl)
  · exact Or.inl (Trans.trans (r := List.Lex (· < ·)) hab hbc)
  · exact Or.inl hab
  · exact Or.inl hbc
  · exact Or.inr rfl

instance : IsTotal String sLe := by
  constructor
  intro a b
  have inst : IsTrichotomous (List Char) (List.Lex (· < ·)) := inferInstance
  rcases inst.trichotomous a.data b.data with h | h | h
  · exact Or.inl (Or.inl h)
  · exact Or.inl (Or.inr (String.ext h))
  · exact Or.inr (Or.inl h)

instance : IsAntisymm String sLe := by
  constructor
  rintro a b (hab | rfl) (hba | hba)
  · exact absurd hba (IsAsymm.asymm (r := List.Lex (· < ·)) _ _ hab)
  · exact hba.symm
  · rfl
  · rfl

/-- Lexicographic order on the four-component grouping key. -/
def keyLe : AggKey → AggKey → Prop := strLex (strLex (strLex sLe))

instance : DecidableRel keyLe :=
  inferInstanceAs (DecidableRel (strLex (strLex (strLex sLe))))

instance : IsTrans AggKey keyLe :=
  inferInstanceAs (IsTrans (String × String × String × String) (strLex (strLex (strLex sLe))))

instance : IsTotal AggKey keyLe :=
  inferInstanceAs (IsTotal (String × String × String × String) (strLex (strLex (strLex sLe))))

instance : IsAntisymm AggKey keyLe :=
  inferInstanceAs (IsAntisymm (String × String × String × String) (strLex (strLex (strLex sLe))))

/-- One row of the aggregate table `df` returned by `load_data`. -/
structure AggRow where
  soldto : String
  city : String
  typ : String
  incoterm : String
  backlog : ℚ
  mtd : ℚ
deriving DecidableEq

def rowOfKey (k : AggKey) (b m : ℚ) : AggRow :=
  ⟨k.1, k.2.1, k.2.2.1, k.2.2.2, b, m⟩

/-- Sum of `ORDERED_QUANTITY` over the rows of one group, as `groupby(...).sum()`
computes it for the group with key `k`. -/
def sumQtyAt (rows : List NormRow) (k : AggKey) : ℚ :=
  ((rows.filter (fun r => decide (keyOf r = k))).map NormRow.qty).sum

/-- The rows feeding the `Backlog` side: `Status Summary == "backlog"`. -/
def backlogRows (rows : List NormRow) : List NormRow :=
  rows.filter (fun r => decide (r.status = "backlog"))

/-- The rows feeding the `MTD` side: `Status Summary == "dispatched"`. -/
def dispatchedRows (rows : List NormRow) : List NormRow :=
  rows.filter (fun r => decide (r.status = "dispatched"))

/-- Distinct grouping keys of the outer merge, sorted lexicographically:
`pd.merge(..., how="outer")` takes the union of the two groupbys' keys and
sorts them lexicographically. -/
def aggKeys (rows : List NormRow) : List AggKey :=
  List.insertionSort keyLe
    (((backlogRows rows).map keyOf ++ (dispatchedRows rows).map keyOf).dedup)

/-- The aggregate table: one row per distinct key, carrying the backlog and
dispatched sums, with a side missing from one groupby filled with `0`. -/
def aggregate (rows : List NormRow) : List AggRow :=
  (aggKeys rows).map fun k =>
    rowOfKey k (sumQtyAt (backlogRows rows) k) (sumQtyAt (dispatchedRows rows) k)

/-- The customer index `sorted(df["SOLDTO"].unique())`. -/
def customersOf (df : List AggRow) : List String :=
  List.insertionSort sLe ((df.map AggRow.soldto).dedup)

/-- Result of `load_data`: either `(None, missing)` or `(df, customers)`. -/
inductive LoadResult where
  | schemaError (missing : List String)
  | ok (df : List AggRow) (customers : List String)
deriving DecidableEq

/-- The `load_data` pipeline: trim headers, check required columns, normalize,
group and outer-merge, and derive the customer index. -/
def load_data (t : RawTable) : LoadResult :=
  if missingOf t = [] then
    let df := aggregate (t.rows.map normalizeRow)
    .ok df (customersOf df)
  else .schemaError (missingOf t)

/-- The breakdown grouping key `["City", "Type", "Incoterm"]`. -/
abbrev BKey := String × String × String

/-- Lexicographic order on the three-component breakdown key. -/
def key3Le : BKey → BKey → Prop := strLex (strLex sLe)

instance : DecidableRel key3Le :=
  inferInstanceAs (DecidableRel (strLex (strLex sLe)))

instance : IsTrans BKey key3Le :=
  inferInstanceAs (IsTrans (String × String × String) (strLex (strLex sLe)))

instance : IsTotal BKey key3Le :=
  inferInstanceAs (IsTotal (String × String × String) (strLex (strLex sLe)))

instance : IsAntisymm BKey key3Le :=
  inferInstanceAs (IsAntisymm (String × String × String) (strLex (strLex sLe)))

def bkeyOf (r : AggRow) : BKey := (r.city, r.typ, r.incoterm)

/-- One row of the `breakdown` frame at query time. -/
structure BRow where
  city : String
  typ : String
  incoterm : String
  backlog : ℚ
  mtd : ℚ
deriving DecidableEq

def bkeyOfB (r : BRow) : BKey := (r.city, r.typ, r.incoterm)

/-- The row filter `df[df["SOLDTO"].str.lower() == selected_customer.lower()]`. -/
def customer_df (df : List AggRow) (c : String) : List AggRow :=
  df.filter (fun r => decide (sLower r.soldto = sLower c))

/-- Distinct breakdown keys of `customer_df`, sorted lexicographically as
`groupby` (with its default key sorting) produces them. -/
def breakdownKeys (cdf : List AggRow) : List BKey :=
  List.insertionSort key3Le ((cdf.map bkeyOf).dedup)

/-- Sum of a column of `cdf` over the group with breakdown key `k`. -/
def sumColAt (col : AggRow → ℚ) (cdf : List AggRow) (k : BKey) : ℚ :=
  ((cdf.filter (fun r => decide (bkeyOf r = k))).map col).sum

/-- The `breakdown` frame: re-group the customer's aggregate rows by
`(City, Type, Incoterm)`, summing `Backlog` and `MTD`. -/
def breakdownOf (cdf : List AggRow) : List BRow :=
  (breakdownKeys cdf).map fun k =>
    ⟨k.1, k.2.1, k.2.2, sumColAt AggRow.backlog cdf k, sumColAt AggRow.mtd cdf k⟩

/-- The resolved data of one query: breakdown plus grand totals. -/
structure QueryResult where
  breakdown : List BRow
  totalBacklog : ℚ
  totalMtd : ℚ
deriving DecidableEq

/-- Query resolution: filter by customer (case-insensitively); an empty filter
result means the customer is not present, otherwise build the breakdown and
the totals `breakdown["Backlog"].sum()` and `breakdown["MTD"].sum()`. -/
def resolve (df : List AggRow) (c : String) : Option QueryResult :=
  let cdf := customer_df df c
  if cdf.isEmpty then none
  else
    let bd := breakdownOf cdf
    some ⟨bd, (bd.map BRow.backlog).sum, (bd.map BRow.mtd).sum⟩

/-- Digit grouping: given the digits least-significant first, insert a comma
after every three digits (mirrors the `,` flag of Python's format spec). -/
def commaGroup : List Char → List Char
  | a :: b :: c :: rest =>
      if rest.isEmpty then [a, b, c] else a :: b :: c :: ',' :: commaGroup rest
  | l => l

/-- Render a natural number with thousands separators. -/
def withCommas (m : Nat) : String :=
  ⟨(commaGroup (Nat.toDigits 10 m).reverse).reverse⟩

/-- Model of Python's `f"{v:,.2f}"`: round to two decimal places (half up;
the source formats a binary float, which differs only on ties no decimal
input ever hits exactly) and render with thousands separators and exactly
two fractional digits. -/
def formatQty (q : ℚ) : String :=
  let n : ℤ := round (q * 100)
  let m : Nat := n.natAbs
  (if n < 0 then "-" else "") ++ withCommas (m / 100) ++ "." ++
    (if m % 100 < 10 then "0" else "") ++ toString (m % 100)

/-- One line of the backlog breakdown listing. -/
def backlogLine (r : BRow) : String :=
  "- " ++ r.city ++ " | " ++ r.typ ++ " | " ++ r.incoterm ++ " → " ++
    formatQty r.backlog ++ "\n"

/-- One line of the MTD breakdown listing. -/
def mtdLine (r : BRow) : String :=
  "- " ++ r.city ++ " | " ++ r.typ ++ " | " ++ r.incoterm ++ " → " ++
    formatQty r.mtd ++ "\n"

/-- The `backlog_text` section, built by successive appends as in the source. -/
def backlogText (c : String) (qr : QueryResult) : String :=
  qr.breakdown.foldl (fun acc r => acc ++ backlogLine r)
    ("## " ++ c ++ " - Backlog Summary\n" ++
     "**Total Backlog:** " ++ formatQty qr.totalBacklog ++ "\n\n" ++
     "### Backlog by City, Type and Incoterm\n")

/-- The `mtd_text` section, built by successive appends as in the source. -/
def mtdText (c : String) (qr : QueryResult) : String :=
  qr.breakdown.foldl (fun acc r => acc ++ mtdLine r)
    ("## " ++ c ++ " - MTD Summary\n" ++
     "**Total MTD:** " ++ formatQty qr.totalMtd ++ "\n\n" ++
     "### MTD by City, Type and Incoterm\n")

/-- Python's `"\n\n".join`. -/
def joinParts : List String → String
  | [] => ""
  | [p] => p
  | p :: ps => p ++ "\n\n" ++ joinParts ps

/-- The response string: the requested sections joined by a blank line. -/
def formatResponse (c questionType : String) (qr : QueryResult) : String :=
  let parts : List String :=
    (if questionType = "Backlog" ∨ questionType = "Backlog & MTD" then
      [backlogText c qr] else []) ++
    (if questionType = "MTD" ∨ questionType = "Backlog & MTD" then
      [mtdText c qr] else [])
  joinParts parts

/-- Roles of a conversation message. -/
inductive Role where
  | user
  | assistant
deriving DecidableEq

/-- One entry of `st.session_state.messages`. -/
structure Message where
  role : Role
  content : String
deriving DecidableEq

/-- The mutable session state: selected customer and message history. -/
structure Session where
  selectedCustomer : Option String
  messages : List Message
deriving DecidableEq

/-- Outcome of pressing `Ask`: either the guard fired a warning and stopped,
or the handler ran to completion. -/
inductive AskResult where
  | warning (text : String)
  | answered
deriving DecidableEq

/-- Python truthiness of `st.session_state.selected_customer`: `None` and the
empty string are falsy. -/
def isFalsy : Option String → Bool
  | none => true
  | some c => c == ""

/-- The literal message shown for an unmatched customer. -/
def customerNotFoundMsg : String := "❌ ERROR: Customer not present in dataset."

/-- The `Ask` button handler: guard on a selected customer, append the user
prompt, resolve, and append either the error message or the formatted
response. Returns the new session state and what happened. -/
def askStep (df : List AggRow) (questionType : String) (s : Session) :
    Session × AskResult :=
  if isFalsy s.selectedCustomer then (s, .warning "Please select a customer.")
  else
    let c := s.selectedCustomer.getD ""
    let prompt := questionType ++ " for " ++ c
    let s1 : Session := { s with messages := s.messages ++ [⟨.user, prompt⟩] }
    match resolve df c with
    | none =>
        ({ s1 with messages := s1.messages ++ [⟨.assistant, customerNotFoundMsg⟩] },
         .answered)
    | some qr =>
        ({ s1 with
            messages := s1.messages ++ [⟨.assistant, formatResponse c questionType qr⟩] },
         .answered)

/-! Concrete inputs used by the witness and counterexample theorems. -/

def missingCityTable : RawTable :=
  ⟨["SOLDTO", "Type", "Incoterm", "Status Summary", "ORDERED_QUANTITY"], []⟩

def sampleAgg : List AggRow := [⟨"ABC123", "Chicago", "Domestic", "FOB", 100, 40⟩]

def zzzSession : Session := ⟨some "ZZZ", []⟩

def emptySession : Session := ⟨none, []⟩

def coercionTable : RawTable :=
  ⟨["SOLDTO", "Type", "Incoterm", "Status Summary", "ORDERED_QUANTITY", "City"],
   [⟨"B1", "T", "I", " Backlog ", "C", none⟩]⟩

def negQtyTable : RawTable :=
  ⟨["SOLDTO", "Type", "Incoterm", "Status Summary", "ORDERED_QUANTITY", "City"],
   [⟨"A", "T", "I", "backlog", "C", some (-5)⟩]⟩

def posQtyTable : RawTable :=
  ⟨["SOLDTO", "Type", "Incoterm", "Status Summary", "ORDERED_QUANTITY", "City"],
   [⟨"A", "T", "I", "backlog", "C", some 7⟩]⟩

def nrow1 : NormRow := ⟨"A", "C", "T", "I", "backlog", 3⟩

def nrow2 : NormRow := ⟨"B", "D", "U", "J", "dispatched", 4⟩

def arow1 : AggRow := ⟨"A", "C", "T", "I", 1, 2⟩

def arow2 : AggRow := ⟨"A", "D", "U", "J", 3, 4⟩

/-! Shared lemmas about grouping, sorting and permutations. -/

/-- Summing the per-group sums over a duplicate-free key list that covers
every row's key recovers the total sum. -/
theorem sum_over_groups {β κ : Type} [DecidableEq κ] (key : β → κ) (val : β → ℚ) :
    ∀ (ks : List κ) (l : List β), ks.Nodup → (∀ r ∈ l, key r ∈ ks) →
      (ks.map fun k => ((l.filter fun r => decide (key r = k)).map val).sum).sum
        = (l.map val).sum := by
  intro ks
  induction ks with
  | nil =>
      intro l _ hcov
      have hl : l = [] := by
        apply List.eq_nil_iff_forall_not_mem.mpr
        intro a ha
        exact (List.not_mem_nil (key a)) (hcov a ha)
      subst hl
      simp
  | cons k ks ih =>
      intro l hnd hcov
      have hk : k ∉ ks := (List.nodup_cons.mp hnd).1
      have hnd2 : ks.Nodup := (List.nodup_cons.mp hnd).2
      have hperm :
          ((l.filter fun r => decide (key r = k)) ++
            (l.filter fun r => !decide (key r = k))).Perm l :=
        List.filter_append_perm _ l
      have hsum : (l.map val).sum
          = ((l.filter fun r => decide (key r = k)).map val).sum
            + ((l.filter fun r => !decide (key r = k)).map val).sum := by
        rw [← (hperm.map val).sum_eq, List.map_append, List.sum_append]
      have hcov2 : ∀ r ∈ (l.filter fun r => !decide (key r = k)), key r ∈ ks := by
        intro r hr
        have hr2 := List.mem_filter.mp hr
        have hne : key r ≠ k := by simpa using hr2.2
        rcases List.mem_cons.mp (hcov r hr2.1) with h | h
        · exact absurd h hne
        · exact h
      have hfilter : ∀ k2 ∈ ks,
          (l.filter fun r => decide (key r = k2))
            = ((l.filter fun r => !decide (key r = k)).filter
                fun r => decide (key r = k2)) := by
        intro k2 hk2
        rw [List.filter_filter]
        apply List.filter_congr
        intro x _
        by_cases hx : key x = k2
        · have hne : k2 ≠ k := fun hc => hk (hc ▸ hk2)
          simp [hx, hne]
        · simp [hx]
      have hmap :
          (ks.map fun k2 => ((l.filter fun r => decide (key r = k2)).map val).sum)
            = ks.map fun k2 =>
                (((l.filter fun r => !decide (key r = k)).filter
                    fun r => decide (key r = k2)).map val).sum :=
        List.map_congr_left fun k2 hk2 => by rw [hfilter k2 hk2]
      rw [List.map_cons, List.sum_cons, hmap, ih _ hnd2 hcov2]
      exact hsum.symm

/-- Sorting the deduplicated keys of two lists that are permutations of one
another yields the same sorted key list. -/
theorem insertionSort_dedup_eq_of_perm {κ : Type} [DecidableEq κ] (r : κ → κ → Prop)
    [DecidableRel r] [IsTrans κ r] [IsTotal κ r] [IsAntisymm κ r]
    {l₁ l₂ : List κ} (h : l₁.Perm l₂) :
    List.insertionSort r l₁.dedup = List.insertionSort r l₂.dedup := by
  apply List.eq_of_perm_of_sorted _ (List.sorted_insertionSort r _)
    (List.sorted_insertionSort r _)
  exact (List.perm_insertionSort r _).trans (h.dedup.trans
    (List.perm_insertionSort r _).symm)

theorem aggKeys_nodup (rows : List NormRow) : (aggKeys rows).Nodup :=
  ((List.perm_insertionSort keyLe _).nodup_iff).mpr (List.nodup_dedup _)

theorem keyOf_mem_aggKeys_of_backlog {rows : List NormRow} {r : NormRow}
    (hr : r ∈ backlogRows rows) : keyOf r ∈ aggKeys rows := by
  unfold aggKeys
  rw [List.mem_insertionSort, List.mem_dedup]
  exact List.mem_append.mpr (Or.inl (List.mem_map_of_mem keyOf hr))

theorem keyOf_mem_aggKeys_of_dispatched {rows : List NormRow} {r : NormRow}
    (hr : r ∈ dispatchedRows rows) : keyOf r ∈ aggKeys rows := by
  unfold aggKeys
  rw [List.mem_insertionSort, List.mem_dedup]
  exact List.mem_append.mpr (Or.inr (List.mem_map_of_mem keyOf hr))

theorem aggregate_backlog_sum (rows : List NormRow) :
    ((aggregate rows).map AggRow.backlog).sum = ((backlogRows rows).map NormRow.qty).sum := by
  unfold aggregate
  rw [List.map_map]
  exact sum_over_groups keyOf NormRow.qty (aggKeys rows) (backlogRows rows)
    (aggKeys_nodup rows) (fun r hr => keyOf_mem_aggKeys_of_backlog hr)

theorem aggregate_mtd_sum (rows : List NormRow) :
    ((aggregate rows).map AggRow.mtd).sum = ((dispatchedRows rows).map NormRow.qty).sum := by
  unfold aggregate
  rw [List.map_map]
  exact sum_over_groups keyOf NormRow.qty (aggKeys rows) (dispatchedRows rows)
    (aggKeys_nodup rows) (fun r hr => keyOf_mem_aggKeys_of_dispatched hr)

/-- Aggregation is invariant under permutation of the normalized rows. -/
theorem aggregate_perm {rows₁ rows₂ : List NormRow} (h : rows₁.Perm rows₂) :
    aggregate rows₁ = aggregate rows₂ := by
  have hb : (backlogRows rows₁).Perm (backlogRows rows₂) := h.filter _
  have hd : (dispatchedRows rows₁).Perm (dispatchedRows rows₂) := h.filter _
  have hkeys : aggKeys rows₁ = aggKeys rows₂ := by
    unfold aggKeys
    exact insertionSort_dedup_eq_of_perm keyLe ((hb.map keyOf).append (hd.map keyOf))
  unfold aggregate
  rw [hkeys]
  apply List.map_congr_left
  intro k _
  have h1 : sumQtyAt (backlogRows rows₁) k = sumQtyAt (backlogRows rows₂) k :=
    ((hb.filter _).map NormRow.qty).sum_eq
  have h2 : sumQtyAt (dispatchedRows rows₁) k = sumQtyAt (dispatchedRows rows₂) k :=
    ((hd.filter _).map NormRow.qty).sum_eq
  rw [h1, h2]

/-- The breakdown is invariant under permutation of the filtered rows. -/
theorem breakdownOf_perm {cdf₁ cdf₂ : List AggRow} (h : cdf₁.Perm cdf₂) :
    breakdownOf cdf₁ = breakdownOf cdf₂ := by
  have hkeys : breakdownKeys cdf₁ = breakdownKeys cdf₂ :=
    insertionSort_dedup_eq_of_perm key3Le (h.map bkeyOf)
  unfold breakdownOf
  rw [hkeys]
  apply List.map_congr_left
  intro k _
  have h1 : sumColAt AggRow.backlog cdf₁ k = sumColAt AggRow.backlog cdf₂ k :=
    ((h.filter _).map AggRow.backlog).sum_eq
  have h2 : sumColAt AggRow.mtd cdf₁ k = sumColAt AggRow.mtd cdf₂ k :=
    ((h.filter _).map AggRow.mtd).sum_eq
  rw [h1, h2]

/-- The breakdown rows carry exactly the sorted distinct breakdown keys. -/
theorem breakdownOf_keys (cdf : List AggRow) :
    (breakdownOf cdf).map bkeyOfB = breakdownKeys cdf := by
  unfold breakdownOf
  rw [List.map_map]
  exact List.map_congr_left (fun k _ => rfl) |>.trans (List.map_id _)

/-! The claims. -/

/-- C1: for every normalized table, the sum of the `Backlog` column over the
aggregate table equals the sum of `ORDERED_QUANTITY` over all normalized rows
whose `Status Summary` is `"backlog"`, and symmetrically the sum of the `MTD`
column equals the sum over rows whose `Status Summary` is `"dispatched"`. -/
theorem conservation_of_quantity (rows : List NormRow) :
    ((aggregate rows).map AggRow.backlog).sum
        = ((rows.filter fun r => decide (r.status = "backlog")).map NormRow.qty).sum ∧
    ((aggregate rows).map AggRow.mtd).sum
        = ((rows.filter fun r => decide (r.status = "dispatched")).map NormRow.qty).sum :=
  ⟨aggregate_backlog_sum rows, aggregate_mtd_sum rows⟩

/-- C2: aggregating a permutation of the normalized rows yields the same
aggregate table, viewed as a set of rows (each aggregate row carries its
`(SOLDTO, City, Type, Incoterm)` key and its `(Backlog, MTD)` pair). -/
theorem aggregation_order_independent (rows₁ rows₂ : List NormRow)
    (h : rows₁.Perm rows₂) :
    ∀ x : AggRow, x ∈ aggregate rows₁ ↔ x ∈ aggregate rows₂ := by
  intro x
  rw [aggregate_perm h]

/-- C10: the breakdown rows stand in lexicographically sorted order of their
`(City, Type, Incoterm)` key, with no key repeated, and re-grouping any
permutation of the same filtered rows yields the identical breakdown list
(so the rendered lines appear in the same order). -/
theorem breakdown_sorted_and_deterministic (cdf₁ cdf₂ : List AggRow)
    (h : cdf₁.Perm cdf₂) :
    List.Sorted key3Le ((breakdownOf cdf₁).map bkeyOfB) ∧
    ((breakdownOf cdf₁).map bkeyOfB).Nodup ∧
    breakdownOf cdf₁ = breakdownOf cdf₂ := by
  refine ⟨?_, ?_, breakdownOf_perm h⟩
  · rw [breakdownOf_keys]
    exact List.sorted_insertionSort key3Le _
  · rw [breakdownOf_keys]
    exact ((List.perm_insertionSort key3Le _).nodup_iff).mpr (List.nodup_dedup _)

/-- The aggregate table's rows carry exactly the sorted distinct keys. -/
theorem aggregate_keys (rows : List NormRow) :
    (aggregate rows).map (fun a => (a.soldto, a.city, a.typ, a.incoterm)) = aggKeys rows := by
  unfold aggregate
  rw [List.map_map]
  exact (List.map_congr_left fun k _ => rfl).trans (List.map_id _)

/-- C3: whenever at least one required column is absent after header trimming,
`load_data` fails with exactly the full list of missing column names and
produces no aggregate table. -/
theorem schema_validation_missing_columns (t : RawTable)
    (h : ∃ c ∈ required_cols, c ∉ strippedColumns t) :
    load_data t = .schemaError (missingOf t) ∧
    missingOf t ≠ [] ∧
    (∀ c, c ∈ missingOf t ↔ c ∈ required_cols ∧ c ∉ strippedColumns t) ∧
    ∀ df cs, load_data t ≠ .ok df cs := by
  obtain ⟨c, hc, hnc⟩ := h
  have hchar : ∀ c2, c2 ∈ missingOf t ↔ c2 ∈ required_cols ∧ c2 ∉ strippedColumns t := by
    intro c2
    unfold missingOf
    rw [List.mem_filter]
    simp
  have hmem : c ∈ missingOf t := (hchar c).mpr ⟨hc, hnc⟩
  have hne : missingOf t ≠ [] := by
    intro h0
    rw [h0] at hmem
    exact List.not_mem_nil c hmem
  have hload : load_data t = .schemaError (missingOf t) := by
    unfold load_data
    rw [if_neg hne]
  refine ⟨hload, hne, hchar, ?_⟩
  intro df cs hcontra
  rw [hload] at hcontra
  exact LoadResult.noConfusion hcontra

theorem schema_validation_missing_columns_witness :
    (∃ c ∈ required_cols, c ∉ strippedColumns missingCityTable) ∧
    load_data missingCityTable = .schemaError (missingOf missingCityTable) ∧
    missingOf missingCityTable = ["City"] :=
  ⟨by decide,
   (schema_validation_missing_columns missingCityTable (by decide)).1,
   by decide⟩

/-- C4: two customer-identifier strings equal after lowercasing select the
same filtered row set and resolve to the same breakdown and totals. -/
theorem case_insensitive_customer_match (df : List AggRow) (c₁ c₂ : String)
    (h : sLower c₁ = sLower c₂) :
    customer_df df c₁ = customer_df df c₂ ∧ resolve df c₁ = resolve df c₂ := by
  have hf : customer_df df c₁ = customer_df df c₂ := by
    unfold customer_df
    exact List.filter_congr fun x _ => by rw [h]
  exact ⟨hf, by unfold resolve; rw [hf]⟩

theorem case_insensitive_customer_match_witness :
    sLower "abc123" = sLower "ABC123" ∧
    resolve sampleAgg "abc123" = resolve sampleAgg "ABC123" :=
  ⟨by decide,
   (case_insensitive_customer_match sampleAgg "abc123" "ABC123" (by decide)).2⟩

/-- C5: a queried customer matching no `SOLDTO` value (case-insensitively)
resolves to no `QueryResult`; the handler appends the user prompt and the
literal error message as an assistant message and completes normally, with
the prior history preserved. -/
theorem unknown_customer_error (df : List AggRow) (qt : String) (s : Session)
    (c : String) (hsel : s.selectedCustomer = some c) (hc : c ≠ "")
    (hmiss : customer_df df c = []) :
    resolve df c = none ∧
    askStep df qt s =
      ({ s with messages := s.messages ++
          [⟨.user, qt ++ " for " ++ c⟩, ⟨.assistant, customerNotFoundMsg⟩] },
       .answered) := by
  have hres : resolve df c = none := by
    unfold resolve
    rw [hmiss]
    rfl
  refine ⟨hres, ?_⟩
  unfold askStep
  rw [hsel]
  have hfal : isFalsy (some c) = false := by
    simp [isFalsy, hc]
  rw [hfal, if_neg Bool.false_ne_true]
  simp only [Option.getD_some, hres]
  simp [List.append_assoc]

theorem unknown_customer_error_witness :
    zzzSession.selectedCustomer = some "ZZZ" ∧ "ZZZ" ≠ "" ∧
    customer_df sampleAgg "ZZZ" = [] ∧
    askStep sampleAgg "Backlog" zzzSession =
      ({ zzzSession with
          messages := [⟨.user, "Backlog for ZZZ"⟩, ⟨.assistant, customerNotFoundMsg⟩] },
       .answered) := by
  refine ⟨rfl, by decide, by decide, ?_⟩
  exact ((unknown_customer_error sampleAgg "Backlog" zzzSession "ZZZ" rfl (by decide)
    (by decide)).2).trans (by decide)

/-- C8: with no customer selected, pressing `Ask` warns and stops before any
resolution, leaving the whole session state (history and selection) exactly
as it was. -/
theorem missing_selection_atomicity (df : List AggRow) (qt : String) (s : Session)
    (h : s.selectedCustomer = none) :
    askStep df qt s = (s, .warning "Please select a customer.") := by
  unfold askStep
  rw [h]
  rfl

theorem missing_selection_atomicity_witness :
    emptySession.selectedCustomer = none ∧
    askStep sampleAgg "Backlog" emptySession
      = (emptySession, .warning "Please select a customer.") :=
  ⟨rfl, missing_selection_atomicity sampleAgg "Backlog" emptySession rfl⟩

/-- C6: in a table that passes schema validation, a row whose quantity cell
is unparsable is normalized with quantity exactly `0`, its other fields
trimmed/lowercased exactly as every other row's, it is not dropped, and its
`(SOLDTO, City, Type, Incoterm)` key appears in the aggregate table whenever
its status feeds either grouping. -/
theorem numeric_coercion_policy (t : RawTable) (r : RawRow)
    (hv : missingOf t = []) (hmem : r ∈ t.rows) (hq : r.orderedQuantity = none) :
    load_data t = .ok (aggregate (t.rows.map normalizeRow))
        (customersOf (aggregate (t.rows.map normalizeRow))) ∧
    (normalizeRow r).qty = 0 ∧
    normalizeRow r =
      { soldto := sTrim r.soldto, city := sTrim r.city, typ := sTrim r.typ,
        incoterm := sTrim r.incoterm, status := sLower (sTrim r.statusSummary),
        qty := 0 } ∧
    normalizeRow r ∈ t.rows.map normalizeRow ∧
    (((normalizeRow r).status = "backlog" ∨ (normalizeRow r).status = "dispatched") →
      keyOf (normalizeRow r) ∈
        (aggregate (t.rows.map normalizeRow)).map
          fun a => (a.soldto, a.city, a.typ, a.incoterm)) := by
  have hq0 : (normalizeRow r).qty = 0 := by
    show r.orderedQuantity.getD 0 = 0
    rw [hq]
    rfl
  refine ⟨?_, hq0, ?_, List.mem_map_of_mem normalizeRow hmem, ?_⟩
  · unfold load_data
    rw [if_pos hv]
  · conv_rhs => rw [← hq0]
    rfl
  · intro hst
    rw [aggregate_keys]
    rcases hst with hb | hd
    · exact keyOf_mem_aggKeys_of_backlog
        (List.mem_filter.mpr ⟨List.mem_map_of_mem normalizeRow hmem, by simp [hb]⟩)
    · exact keyOf_mem_aggKeys_of_dispatched
        (List.mem_filter.mpr ⟨List.mem_map_of_mem normalizeRow hmem, by simp [hd]⟩)

theorem numeric_coercion_policy_witness :
    missingOf coercionTable = [] ∧
    (⟨"B1", "T", "I", " Backlog ", "C", none⟩ : RawRow) ∈ coercionTable.rows ∧
    (⟨"B1", "T", "I", " Backlog ", "C", none⟩ : RawRow).orderedQuantity = none ∧
    (normalizeRow ⟨"B1", "T", "I", " Backlog ", "C", none⟩).qty = 0 ∧
    keyOf (normalizeRow ⟨"B1", "T", "I", " Backlog ", "C", none⟩) ∈
      (aggregate (coercionTable.rows.map normalizeRow)).map
        fun a => (a.soldto, a.city, a.typ, a.incoterm) := by
  have h := numeric_coercion_policy coercionTable
    ⟨"B1", "T", "I", " Backlog ", "C", none⟩ (by decide) (by decide) rfl
  exact ⟨by decide, by decide, rfl, h.2.1, h.2.2.2.2 (Or.inl (by decide))⟩

/-- C7 (amended): every aggregate row produced by `load_data` from a
validated table all of whose parsed quantity cells are non-negative has
`Backlog ≥ 0` and `MTD ≥ 0` (unparsable cells coerce to `0`, preserving
this). -/
theorem aggregate_nonneg_of_nonneg_inputs (t : RawTable)
    (hq : ∀ r ∈ t.rows, ∀ q : ℚ, r.orderedQuantity = some q → 0 ≤ q) :
    ∀ df cs, load_data t = .ok df cs → ∀ row ∈ df, 0 ≤ row.backlog ∧ 0 ≤ row.mtd := by
  have hqty : ∀ n ∈ t.rows.map normalizeRow, 0 ≤ n.qty := by
    intro n hn
    obtain ⟨r0, hr0, rfl⟩ := List.mem_map.mp hn
    show 0 ≤ r0.orderedQuantity.getD 0
    cases hopt : r0.orderedQuantity with
    | none => simp
    | some q => simpa using hq r0 hr0 q hopt
  intro df cs hld row hrow
  unfold load_data at hld
  by_cases hm : missingOf t = []
  · rw [if_pos hm] at hld
    cases hld
    obtain ⟨k, _, rfl⟩ := List.mem_map.mp hrow
    constructor
    · show 0 ≤ sumQtyAt (backlogRows (t.rows.map normalizeRow)) k
      apply List.sum_nonneg
      intro x hx
      obtain ⟨n, hn, rfl⟩ := List.mem_map.mp hx
      exact hqty n (List.mem_filter.mp (List.mem_filter.mp hn).1).1
    · show 0 ≤ sumQtyAt (dispatchedRows (t.rows.map normalizeRow)) k
      apply List.sum_nonneg
      intro x hx
      obtain ⟨n, hn, rfl⟩ := List.mem_map.mp hx
      exact hqty n (List.mem_filter.mp (List.mem_filter.mp hn).1).1
  · rw [if_neg hm] at hld
    exact LoadResult.noConfusion hld

/-- C7 counterexample: the code never checks quantity signs, so a validated
table carrying a negative `ORDERED_QUANTITY` yields an aggregate row with a
negative `Backlog`, refuting the unconditional non-negativity claim. -/
theorem aggregate_nonneg_cex :
    ¬ ∀ (t : RawTable) (df : List AggRow) (cs : List String),
        load_data t = .ok df cs → ∀ row ∈ df, 0 ≤ row.backlog ∧ 0 ≤ row.mtd := by
  intro hclaim
  have h := (hclaim negQtyTable _ _ rfl
    (rowOfKey ("A", "C", "T", "I") ((-5 : ℚ) + 0) 0)
    (List.mem_singleton_self _)).1
  rw [add_zero] at h
  exact absurd h (by decide)

theorem aggregate_nonneg_of_nonneg_inputs_witness :
    (∀ r ∈ posQtyTable.rows, ∀ q : ℚ, r.orderedQuantity = some q → 0 ≤ q) ∧
    (∀ df cs, load_data posQtyTable = .ok df cs →
      ∀ row ∈ df, 0 ≤ row.backlog ∧ 0 ≤ row.mtd) := by
  have hq : ∀ r ∈ posQtyTable.rows, ∀ q : ℚ, r.orderedQuantity = some q → 0 ≤ q := by
    intro r hr q hqe
    rcases List.mem_singleton.mp hr with rfl
    injection hqe with h
    rw [← h]
    decide
  exact ⟨hq, aggregate_nonneg_of_nonneg_inputs posQtyTable hq⟩

theorem join_cons (x : String) (xs : List String) :
    String.join (x :: xs) = x ++ String.join xs := by
  apply String.ext
  rw [String.join_eq, String.join_eq, String.data_append, List.map_cons,
    List.flatten_cons]

/-- Appending one rendered line per row, as the source's `+=` loop does,
is prepending the seed text to the joined rendered lines. -/
theorem foldl_append_join {β : Type} (f : β → String) :
    ∀ (l : List β) (init : String),
      l.foldl (fun acc r => acc ++ f r) init = init ++ String.join (l.map f)
  | [], init => by
      show init = init ++ String.join []
      rw [show String.join [] = "" from rfl, String.append_empty]
  | a :: tl, init => by
      rw [List.foldl_cons, List.map_cons, join_cons,
        foldl_append_join f tl (init ++ f a), String.append_assoc]

/-- C9: each requested metric renders as a section made of a heading naming
the customer and metric, the grand total rendered by `formatQty` (thousands
separators, two decimals), and one `city | type | incoterm → value` line per
breakdown row with the value rendered by the same `formatQty`; requesting
both metrics concatenates the two sections, Backlog first, separated by a
blank line. -/
theorem formatter_structure (c : String) (qr : QueryResult) :
    formatResponse c "Backlog" qr
        = "## " ++ c ++ " - Backlog Summary\n" ++ "**Total Backlog:** "
          ++ formatQty qr.totalBacklog ++ "\n\n"
          ++ "### Backlog by City, Type and Incoterm\n"
          ++ String.join (qr.breakdown.map fun r =>
              "- " ++ r.city ++ " | " ++ r.typ ++ " | " ++ r.incoterm ++ " → "
                ++ formatQty r.backlog ++ "\n") ∧
    formatResponse c "MTD" qr
        = "## " ++ c ++ " - MTD Summary\n" ++ "**Total MTD:** "
          ++ formatQty qr.totalMtd ++ "\n\n"
          ++ "### MTD by City, Type and Incoterm\n"
          ++ String.join (qr.breakdown.map fun r =>
              "- " ++ r.city ++ " | " ++ r.typ ++ " | " ++ r.incoterm ++ " → "
                ++ formatQty r.mtd ++ "\n") ∧
    formatResponse c "Backlog & MTD" qr
        = ("## " ++ c ++ " - Backlog Summary\n" ++ "**Total Backlog:** "
          ++ formatQty qr.totalBacklog ++ "\n\n"
          ++ "### Backlog by City, Type and Incoterm\n"
          ++ String.join (qr.breakdown.map fun r =>
              "- " ++ r.city ++ " | " ++ r.typ ++ " | " ++ r.incoterm ++ " → "
                ++ formatQty r.backlog ++ "\n"))
          ++ "\n\n"
          ++ ("## " ++ c ++ " - MTD Summary\n" ++ "**Total MTD:** "
          ++ formatQty qr.totalMtd ++ "\n\n"
          ++ "### MTD by City, Type and Incoterm\n"
          ++ String.join (qr.breakdown.map fun r =>
              "- " ++ r.city ++ " | " ++ r.typ ++ " | " ++ r.incoterm ++ " → "
                ++ formatQty r.mtd ++ "\n")) := by
  have hb : backlogText c qr
      = "## " ++ c ++ " - Backlog Summary\n" ++ "**Total Backlog:** "
          ++ formatQty qr.totalBacklog ++ "\n\n"
          ++ "### Backlog by City, Type and Incoterm\n"
          ++ String.join (qr.breakdown.map fun r =>
              "- " ++ r.city ++ " | " ++ r.typ ++ " | " ++ r.incoterm ++ " → "
                ++ formatQty r.backlog ++ "\n") := by
    unfold backlogText
    rw [foldl_append_join backlogLine,
      show List.map backlogLine qr.breakdown
          = List.map (fun r => "- " ++ r.city ++ " | " ++ r.typ ++ " | " ++ r.incoterm
              ++ " \u2192 " ++ formatQty r.backlog ++ "\n") qr.breakdown
        from List.map_congr_left fun r _ => rfl]
  have hm : mtdText c qr
      = "## " ++ c ++ " - MTD Summary\n" ++ "**Total MTD:** "
          ++ formatQty qr.totalMtd ++ "\n\n"
          ++ "### MTD by City, Type and Incoterm\n"
          ++ String.join (qr.breakdown.map fun r =>
              "- " ++ r.city ++ " | " ++ r.typ ++ " | " ++ r.incoterm ++ " → "
                ++ formatQty r.mtd ++ "\n") := by
    unfold mtdText
    rw [foldl_append_join mtdLine,
      show List.map mtdLine qr.breakdown
          = List.map (fun r => "- " ++ r.city ++ " | " ++ r.typ ++ " | " ++ r.incoterm
              ++ " \u2192 " ++ formatQty r.mtd ++ "\n") qr.breakdown
        from List.map_congr_left fun r _ => rfl]
  refine ⟨?_, ?_, ?_⟩
  · show backlogText c qr = _
    exact hb
  · show mtdText c qr = _
    exact hm
  · show backlogText c qr ++ "\n\n" ++ mtdText c qr = _
    rw [hb, hm]

theorem aggregation_order_independent_witness :
    ([nrow1, nrow2].Perm [nrow2, nrow1]) ∧
    ((⟨"A", "C", "T", "I", 0, 0⟩ : AggRow) ∈ aggregate [nrow1, nrow2]
      ↔ (⟨"A", "C", "T", "I", 0, 0⟩ : AggRow) ∈ aggregate [nrow2, nrow1]) :=
  ⟨List.Perm.swap nrow2 nrow1 [],
   aggregation_order_independent [nrow1, nrow2] [nrow2, nrow1]
     (List.Perm.swap nrow2 nrow1 []) ⟨"A", "C", "T", "I", 0, 0⟩⟩

theorem breakdown_sorted_and_deterministic_witness :
    ([arow1, arow2].Perm [arow2, arow1]) ∧
    (List.Sorted key3Le ((breakdownOf [arow1, arow2]).map bkeyOfB) ∧
     ((breakdownOf [arow1, arow2]).map bkeyOfB).Nodup ∧
     breakdownOf [arow1, arow2] = breakdownOf [arow2, arow1]) :=
  ⟨List.Perm.swap arow2 arow1 [],
   breakdown_sorted_and_deterministic [arow1, arow2] [arow2, arow1]
     (List.Perm.swap arow2 arow1 [])⟩

end Orderful
